import Mathlib

/-!
Shallow embedding of the core of the `oidc-jwt-fetcher` repository: the
token-acquisition-and-reconciliation loop.  The repository carries two Go
variants of the core:

* variant A (`oidc-secret-manager`): `getOIDCToken` with an in-line retry
  loop, `withRetries`, `manageNamespaceSecret` (get / create / update with a
  token-equality skip), and `manageSecretsClusterWide` (aggregate-and-continue
  error collection);
* variant B (the CronJob `main`): `TARGET_NAMESPACES` parsing,
  `createOrUpdateSecret` (get, then create or JSON merge patch), and
  `processSecretsInNamespaces` (fail-fast: `log.Fatalf` on the first
  failing namespace).

External collaborators (the OIDC HTTP endpoint and the cluster API server)
are modelled as oracles / explicit state, following their documented wire
contracts.  Time is modelled as natural-number nanoseconds (Go
`time.Duration` units); sleeps are recorded in a trace rather than executed.
-/

/-- Nanoseconds in one second, the unit of Go `time.Duration` literals. -/
def second : Nat := 1000000000

/-- Source constant `maxRetries = 3`. -/
def maxRetries : Nat := 3

/-- Source constant `baseRetryDelay = 2 * time.Second`, in nanoseconds. -/
def baseRetryDelay : Nat := 2 * second

/-- Go struct `TokenResponse` with the single json field `access_token`.
A body whose JSON decodes but lacks the field yields the Go zero value,
the empty string. -/
structure TokenResponse where
  access_token : String
deriving DecidableEq

/-- The decode outcome of a response body: either the JSON decoder fails
(`malformed`), or it produces a `TokenResponse`. -/
inductive Body where
  | malformed : Body
  | decoded : TokenResponse → Body
deriving DecidableEq

/-- Outcome of one `client.PostForm` attempt against the token endpoint:
either a transport error (non-nil Go `error`, which includes the client-side
timeout), or an HTTP response with a status code and a body. -/
inductive AttemptOutcome where
  | transportError : String → AttemptOutcome
  | httpResponse : Nat → Body → AttemptOutcome
deriving DecidableEq

/-- The break condition of the retry loop in `getOIDCToken`:
`lastError == nil && resp.StatusCode == http.StatusOK`. -/
def attemptSucceeded : AttemptOutcome → Bool
  | .transportError _ => false
  | .httpResponse status _ => status == 200

/-- Errors produced by `getOIDCToken`, mirroring the four `return ""` sites:
`requestFailed n e` is `"token request failed after n attempts: e"`,
`badStatus s b` is `"token endpoint returned s: b"`, `decodeFailed` is the
JSON decoder error and `emptyToken` is `"empty access token in response"`. -/
inductive TokenError where
  | requestFailed : Nat → String → TokenError
  | badStatus : Nat → String → TokenError
  | decodeFailed : TokenError
  | emptyToken : TokenError
deriving DecidableEq

/-- The `for i := 0; i < maxRetries; i++` loop of `getOIDCToken`.  The
endpoint is an oracle from attempt index to outcome.  Returns the outcome
held in `resp`/`lastError` when the loop exits, the list of attempt indices
performed, and the list of sleeps (`time.Duration(i+1) * baseRetryDelay`)
executed between attempts.  `fuel` is the number of retries still allowed
(the loop sleeps and continues only while `i < maxRetries-1`). -/
def tokenLoop (oracle : Nat → AttemptOutcome) : Nat → Nat → AttemptOutcome × List Nat × List Nat
  | i, fuel =>
    let out := oracle i
    if attemptSucceeded out then (out, [i], [])
    else
      match fuel with
      | 0 => (out, [i], [])
      | fuel' + 1 =>
        let rest := tokenLoop oracle (i + 1) fuel'
        (rest.1, i :: rest.2.1, (i + 1) * baseRetryDelay :: rest.2.2)

/-- The full retry loop of `getOIDCToken`: start at attempt index 0 with
`maxRetries - 1` retries allowed. -/
def getOIDCTokenRun (oracle : Nat → AttemptOutcome) : AttemptOutcome × List Nat × List Nat :=
  tokenLoop oracle 0 (maxRetries - 1)

/-- The 200-status tail of `getOIDCToken`: decode the body, then reject an
empty `access_token` (`errors.New("empty access token in response")`). -/
def decodeBody : Body → Except TokenError String
  | .malformed => .error .decodeFailed
  | .decoded t => if t.access_token = "" then .error .emptyToken else .ok t.access_token

/-- The code after the retry loop of `getOIDCToken`: a non-nil `lastError`
wraps into `requestFailed`; a non-200 status reports `badStatus` whose body
string is empty because the loop already read and closed the body for the
warning log, and `io.ReadAll` on a closed response body yields no bytes
(the read error is discarded by `body, _ :=`); a 200 status decodes. -/
def finishToken : AttemptOutcome → Except TokenError String
  | .transportError e => .error (.requestFailed maxRetries e)
  | .httpResponse status body =>
    if status = 200 then decodeBody body else .error (.badStatus status "")

/-- Variant A `getOIDCToken`, as a function of the endpoint oracle. -/
def getOIDCToken (oracle : Nat → AttemptOutcome) : Except TokenError String :=
  finishToken (getOIDCTokenRun oracle).1

/-- The failure `getOIDCToken` is specified to produce from the outcome of
its last attempt: wrap a transport error, or report the last status code. -/
def lastFailureError : AttemptOutcome → Except TokenError String
  | .transportError e => .error (.requestFailed maxRetries e)
  | .httpResponse status _ => .error (.badStatus status "")

/-- One unfolding of the three-attempt token loop: the run stops at the
first successful attempt, or performs all three. -/
theorem getOIDCTokenRun_eq (oracle : Nat → AttemptOutcome) :
    getOIDCTokenRun oracle =
      if attemptSucceeded (oracle 0) then (oracle 0, [0], [])
      else if attemptSucceeded (oracle 1) then (oracle 1, [0, 1], [1 * baseRetryDelay])
      else (oracle 2, [0, 1, 2], [1 * baseRetryDelay, 2 * baseRetryDelay]) := by
  by_cases h0 : attemptSucceeded (oracle 0) <;>
    by_cases h1 : attemptSucceeded (oracle 1) <;>
      by_cases h2 : attemptSucceeded (oracle 2) <;>
        simp [getOIDCTokenRun, maxRetries, tokenLoop, h0, h1, h2]

/-- Claim C2: for a token endpoint that fails on every attempt, the loop
performs exactly the three attempts 0, 1, 2 (never a fourth), and the
returned failure references the last attempt: it wraps the last transport
error or reports the last status code. -/
theorem fetchToken_always_failing_three_attempts (oracle : Nat → AttemptOutcome)
    (h : ∀ i, i < maxRetries → attemptSucceeded (oracle i) = false) :
    (getOIDCTokenRun oracle).2.1 = [0, 1, 2] ∧
    getOIDCToken oracle = lastFailureError (oracle 2) := by
  have h0 := h 0 (by norm_num [maxRetries])
  have h1 := h 1 (by norm_num [maxRetries])
  have h2 := h 2 (by norm_num [maxRetries])
  have hrun := getOIDCTokenRun_eq oracle
  rw [h0, h1] at hrun
  simp only [if_false, Bool.false_eq_true] at hrun
  refine ⟨by rw [hrun], ?_⟩
  rw [getOIDCToken, hrun]
  cases ho : oracle 2 with
  | transportError e => simp [finishToken, lastFailureError]
  | httpResponse s body =>
    rw [ho] at h2
    have hs : s ≠ 200 := by
      simpa [attemptSucceeded] using h2
    simp [finishToken, lastFailureError, hs]

/-- Endpoint oracle answering HTTP 500 with an undecodable body on every
attempt. -/
def alwaysFail500 : Nat → AttemptOutcome := fun _ => .httpResponse 500 .malformed

/-- Concrete instantiation of `fetchToken_always_failing_three_attempts` at
an endpoint that always returns HTTP 500. -/
theorem fetchToken_always_failing_three_attempts_applied :
    (∀ i, i < maxRetries → attemptSucceeded (alwaysFail500 i) = false) ∧
    ((getOIDCTokenRun alwaysFail500).2.1 = [0, 1, 2] ∧
      getOIDCToken alwaysFail500 = lastFailureError (alwaysFail500 2)) :=
  ⟨by decide, fetchToken_always_failing_three_attempts alwaysFail500 (by decide)⟩

/-- The post-loop code maps an outcome to `.ok t` exactly when it is an HTTP
200 response whose body decodes to a non-empty access token `t`. -/
theorem finishToken_ok_iff (out : AttemptOutcome) (t : String) :
    finishToken out = .ok t ↔ out = .httpResponse 200 (.decoded ⟨t⟩) ∧ t ≠ "" := by
  cases out with
  | transportError e => simp [finishToken]
  | httpResponse s b =>
    by_cases hs : s = 200
    · subst hs
      cases b with
      | malformed => simp [finishToken, decodeBody]
      | decoded tr =>
        cases tr with
        | mk a =>
          by_cases ha : a = ""
          · subst ha
            simp [finishToken, decodeBody]
            intro h
            simp [h]
          · simp [finishToken, decodeBody, ha]
            exact fun h => h ▸ ha
    · simp [finishToken, hs]

/-- Claim C5: `getOIDCToken` returns an access token exactly when some
attempt (the first one to break the loop) answered HTTP 200 with a body
decoding to a non-empty `access_token`; in particular a first-attempt 200
with body `{"access_token":"abc"}` yields `"abc"`, while a 200 whose
`access_token` is empty or missing, or whose body is undecodable, is a
fetch failure. -/
theorem fetchToken_ok_iff_status200_nonempty :
    (∀ (oracle : Nat → AttemptOutcome) (t : String),
      getOIDCToken oracle = .ok t ↔
        ∃ k, k < maxRetries ∧ (∀ j, j < k → attemptSucceeded (oracle j) = false) ∧
          oracle k = .httpResponse 200 (.decoded ⟨t⟩) ∧ t ≠ "") ∧
    getOIDCToken (fun _ => .httpResponse 200 (.decoded ⟨"abc"⟩)) = .ok "abc" ∧
    getOIDCToken (fun _ => .httpResponse 200 (.decoded ⟨""⟩)) = .error .emptyToken ∧
    getOIDCToken (fun _ => .httpResponse 200 .malformed) = .error .decodeFailed := by
  refine ⟨?_, rfl, rfl, rfl⟩
  intro oracle t
  constructor
  · intro hok
    rw [getOIDCToken, getOIDCTokenRun_eq] at hok
    by_cases h0 : attemptSucceeded (oracle 0)
    · rw [if_pos h0] at hok
      rw [finishToken_ok_iff] at hok
      exact ⟨0, by norm_num [maxRetries], fun j hj => absurd hj (by omega), hok.1, hok.2⟩
    · rw [if_neg h0] at hok
      by_cases h1 : attemptSucceeded (oracle 1)
      · rw [if_pos h1] at hok
        rw [finishToken_ok_iff] at hok
        refine ⟨1, by norm_num [maxRetries], ?_, hok.1, hok.2⟩
        intro j hj
        interval_cases j
        exact Bool.not_eq_true _ ▸ (by simpa using h0)
      · rw [if_neg h1] at hok
        rw [finishToken_ok_iff] at hok
        refine ⟨2, by norm_num [maxRetries], ?_, hok.1, hok.2⟩
        intro j hj
        interval_cases j
        · simpa using h0
        · simpa using h1
  · rintro ⟨k, hk, hfail, horacle, ht⟩
    have hsucc : attemptSucceeded (oracle k) = true := by
      rw [horacle]; rfl
    rw [getOIDCToken, getOIDCTokenRun_eq]
    norm_num [maxRetries] at hk
    interval_cases k
    · rw [if_pos hsucc]
      rw [finishToken_ok_iff]
      exact ⟨horacle, ht⟩
    · rw [if_neg (by simp [hfail 0 (by omega)]), if_pos hsucc]
      rw [finishToken_ok_iff]
      exact ⟨horacle, ht⟩
    · rw [if_neg (by simp [hfail 0 (by omega)]), if_neg (by simp [hfail 1 (by omega)])]
      rw [finishToken_ok_iff]
      exact ⟨horacle, ht⟩

/-- Claim C10: a 200 response at attempt `k` breaks the retry loop at that
attempt, before the body is inspected: the attempts performed are exactly
`0..k`, and the final result is the decode of that body — so a malformed
body or an empty `access_token` fails immediately without consuming any
further retry attempt. -/
theorem status200_breaks_retry_loop (oracle : Nat → AttemptOutcome) (k : Nat) (body : Body)
    (hk : k < maxRetries) (hfail : ∀ j, j < k → attemptSucceeded (oracle j) = false)
    (h200 : oracle k = .httpResponse 200 body) :
    (getOIDCTokenRun oracle).2.1 = List.range (k + 1) ∧
    getOIDCToken oracle = decodeBody body := by
  have hsucc : attemptSucceeded (oracle k) = true := by
    rw [h200]; rfl
  rw [getOIDCToken, getOIDCTokenRun_eq]
  norm_num [maxRetries] at hk
  interval_cases k
  · rw [hsucc, h200]
    exact ⟨by simp [List.range_succ], by simp [finishToken]⟩
  · have e0 : attemptSucceeded (oracle 0) = false := hfail 0 (by omega)
    rw [e0, hsucc, h200]
    exact ⟨by simp [List.range_succ], by simp [finishToken]⟩
  · have e0 : attemptSucceeded (oracle 0) = false := hfail 0 (by omega)
    have e1 : attemptSucceeded (oracle 1) = false := hfail 1 (by omega)
    rw [e0, e1, h200]
    exact ⟨by simp [List.range_succ], by simp [finishToken]⟩

/-- Endpoint oracle answering HTTP 200 with an undecodable body on every
attempt. -/
def always200Malformed : Nat → AttemptOutcome := fun _ => .httpResponse 200 .malformed

/-- Concrete instantiation of `status200_breaks_retry_loop`: a first-attempt
200 with a malformed body stops after one attempt and fails to decode. -/
theorem status200_breaks_retry_loop_applied :
    0 < maxRetries ∧
    ((getOIDCTokenRun always200Malformed).2.1 = List.range (0 + 1) ∧
      getOIDCToken always200Malformed = decodeBody .malformed) :=
  ⟨by decide,
    status200_breaks_retry_loop always200Malformed 0 .malformed (by decide)
      (fun j hj => absurd hj (by omega)) rfl⟩

/-- The loop of `withRetries`: `fn` is modelled as a sequence of results,
one per call.  Returns the final result, the list of attempt indices, and
the list of sleeps (`time.Duration(i+1) * baseRetryDelay`) executed between
attempts; the loop sleeps only while `i < maxRetries-1`. -/
def withRetriesLoop (fn : Nat → Except String Unit) : Nat → Nat → Except String Unit × List Nat × List Nat
  | i, fuel =>
    match fn i with
    | .ok _ => (.ok (), [i], [])
    | .error e =>
      match fuel with
      | 0 => (.error e, [i], [])
      | fuel' + 1 =>
        let rest := withRetriesLoop fn (i + 1) fuel'
        (rest.1, i :: rest.2.1, (i + 1) * baseRetryDelay :: rest.2.2)

/-- The full loop of `withRetries`, from attempt 0 with `maxRetries - 1`
retries allowed. -/
def withRetriesRun (fn : Nat → Except String Unit) : Except String Unit × List Nat × List Nat :=
  withRetriesLoop fn 0 (maxRetries - 1)

/-- Variant A `withRetries`: on success inside the loop return `nil`;
after exhausting the loop wrap the last error as
`"failed after %d attempts: %w"`. -/
def withRetries (fn : Nat → Except String Unit) : Except String Unit :=
  match (withRetriesRun fn).1 with
  | .ok _ => .ok ()
  | .error e => .error ("failed after " ++ toString maxRetries ++ " attempts: " ++ e)

/-- Claim C8: in both retry loops (token fetch and the per-namespace
`withRetries`), the sleeps recorded are exactly one per non-final attempt,
the sleep after 0-indexed attempt `i` being `(i+1) * baseRetryDelay` —
linearly increasing, and none after the final attempt.  Concretely, with
base delay 2s, a run that fails all three attempts sleeps 2s then 4s. -/
theorem retry_delays_linear_no_final_delay :
    (∀ oracle : Nat → AttemptOutcome,
      (getOIDCTokenRun oracle).2.2 =
        ((getOIDCTokenRun oracle).2.1.dropLast).map (fun i => (i + 1) * baseRetryDelay)) ∧
    (∀ fn : Nat → Except String Unit,
      (withRetriesRun fn).2.2 =
        ((withRetriesRun fn).2.1.dropLast).map (fun i => (i + 1) * baseRetryDelay)) ∧
    (getOIDCTokenRun alwaysFail500).2.2 = [2 * second, 4 * second] ∧
    (withRetriesRun (fun _ => .error "boom")).2.2 = [2 * second, 4 * second] := by
  refine ⟨?_, ?_, by decide, by decide⟩
  · intro oracle
    rw [getOIDCTokenRun_eq]
    by_cases h0 : attemptSucceeded (oracle 0) <;>
      by_cases h1 : attemptSucceeded (oracle 1) <;>
        simp [h0, h1]
  · intro fn
    cases hf0 : fn 0 <;> cases hf1 : fn 1 <;> cases hf2 : fn 2 <;>
      simp [withRetriesRun, maxRetries, withRetriesLoop, hf0, hf1, hf2]

/-- Go map read with zero-value default: `m[k]` is `""` when `k` is absent
(including on a nil map). -/
def mapGet (m : List (String × String)) (k : String) : String :=
  match m with
  | [] => ""
  | (k', v) :: rest => if k' = k then v else mapGet rest k

/-- Go map assignment `m[k] = v`: overwrite the existing entry or append. -/
def mapSetKV (m : List (String × String)) (k v : String) : List (String × String) :=
  match m with
  | [] => [(k, v)]
  | (k', v') :: rest => if k' = k then (k, v) :: rest else (k', v') :: mapSetKV rest k v

/-- A Secret as persisted by the cluster API server: name, labels and the
`data` map (values kept in decoded form). -/
structure StoredSecret where
  name : String
  labels : List (String × String)
  data : List (String × String)
deriving DecidableEq

/-- The fields of `corev1.Secret` used by variant A's code: `data` plus the
write-only convenience field `stringData`. -/
structure GoSecret where
  name : String
  labels : List (String × String)
  data : List (String × String)
  stringData : List (String × String)
deriving DecidableEq

/-- Cluster API server write semantics (Create/Update), from the Kubernetes
API contract for `stringData`: all `stringData` keys and values are merged
into `data` on write, overwriting existing values. -/
def applyWrite (sec : GoSecret) : StoredSecret :=
  { name := sec.name, labels := sec.labels,
    data := sec.stringData.foldl (fun acc kv => mapSetKV acc kv.1 kv.2) sec.data }

/-- Cluster API server read semantics (Get), from the Kubernetes API
contract: `stringData` is write-only and is never output when reading, so a
fetched Secret carries an empty (nil) `stringData` map. -/
def readSecret (st : StoredSecret) : GoSecret :=
  { name := st.name, labels := st.labels, data := st.data, stringData := [] }

/-- The Secret literal built at the top of variant A's
`manageNamespaceSecret`: name `oidc-jwt`, provenance labels, and the token
supplied through `StringData`. -/
def desiredSecret (token : String) : GoSecret :=
  { name := "oidc-jwt",
    labels := [("app.kubernetes.io/managed-by", "oidc-secret-manager"),
               ("app.kubernetes.io/created-by", "oidc-secret-manager")],
    data := [],
    stringData := [("token", token)] }

/-- Per-namespace reconciliation outcome. -/
inductive ReconcileOutcome where
  | created : ReconcileOutcome
  | updated : ReconcileOutcome
  | unchanged : ReconcileOutcome
deriving DecidableEq

/-- Variant A `manageNamespaceSecret`, acting on one namespace whose current
state is `existing` (the result of the Get, `none` for IsNotFound).
Returns the namespace state afterwards, the outcome, and whether a write
(Create or Update) was performed.  The equality test is the source's
`existing.StringData["token"] == token`, evaluated on the fetched object. -/
def manageNamespaceSecret (existing : Option StoredSecret) (token : String) :
    Option StoredSecret × ReconcileOutcome × Bool :=
  match existing with
  | none => (some (applyWrite (desiredSecret token)), .created, true)
  | some ex =>
    let fetched := readSecret ex
    if mapGet fetched.stringData "token" = token then (some ex, .unchanged, false)
    else (some (applyWrite (desiredSecret token)), .updated, true)

/-- The base64 standard alphabet used by `base64.StdEncoding`. -/
def base64Table : List Char :=
  "ABCDEFGHIJKLMNOPQRSTUVWXYZabcdefghijklmnopqrstuvwxyz0123456789+/".data

/-- The base64 digit for a 6-bit value. -/
def b64Char (n : Nat) : Char := base64Table.getD n 'A'

/-- Standard base64 of a byte list, three bytes at a time with `=` padding,
as `base64.StdEncoding.EncodeToString` produces. -/
def base64Chunks : List Nat → List Char
  | [] => []
  | [b1] => [b64Char (b1 / 4), b64Char (b1 % 4 * 16), '=', '=']
  | [b1, b2] => [b64Char (b1 / 4), b64Char (b1 % 4 * 16 + b2 / 16), b64Char (b2 % 16 * 4), '=']
  | b1 :: b2 :: b3 :: rest =>
    b64Char (b1 / 4) :: b64Char (b1 % 4 * 16 + b2 / 16) ::
      b64Char (b2 % 16 * 4 + b3 / 64) :: b64Char (b3 % 64) :: base64Chunks rest

/-- UTF-8 encoding of one code point, the byte expansion Go applies in the
`[]byte(token)` conversion. -/
def utf8Bytes (c : Nat) : List Nat :=
  if c < 128 then [c]
  else if c < 2048 then [192 + c / 64, 128 + c % 64]
  else if c < 65536 then [224 + c / 4096, 128 + c / 64 % 64, 128 + c % 64]
  else [240 + c / 262144, 128 + c / 4096 % 64, 128 + c / 64 % 64, 128 + c % 64]

/-- The bytes of a Go string: UTF-8 of its code points. -/
def strBytes (s : String) : List Nat :=
  s.data.foldr (fun c acc => utf8Bytes c.toNat ++ acc) []

/-- `base64.StdEncoding.EncodeToString([]byte(s))`. -/
def base64EncodeStr (s : String) : String := ⟨base64Chunks (strBytes s)⟩

mutual
/-- JSON values as needed for Secret objects and merge patches: strings,
`null`, and objects (an association list of fields). -/
inductive JVal where
  | str : String → JVal
  | jnull : JVal
  | obj : JObj → JVal
/-- A JSON object: an association list of named fields. -/
inductive JObj where
  | nil : JObj
  | cons : String → JVal → JObj → JObj
end

/-- Field lookup in a JSON object (first occurrence). -/
def JObj.get : JObj → String → Option JVal
  | .nil, _ => none
  | .cons k v rest, key => if k = key then some v else JObj.get rest key

/-- Replace the value of a field, or append the field if absent. -/
def JObj.set : JObj → String → JVal → JObj
  | .nil, key, val => .cons key val .nil
  | .cons k v rest, key, val =>
    if k = key then .cons k val rest else .cons k v (JObj.set rest key val)

/-- Remove a field. -/
def JObj.remove : JObj → String → JObj
  | .nil, _ => .nil
  | .cons k v rest, key =>
    if k = key then JObj.remove rest key else .cons k v (JObj.remove rest key)

mutual
/-- RFC 7386 JSON Merge Patch, the semantics the cluster API server applies
to a `types.MergePatchType` patch (modelled from the wire contract; the API
server itself is an external collaborator).  A non-object patch replaces the
target; an object patch merges field-wise, `null` removing the field, and
recursing into object values (a non-object target counts as `{}`). -/
def mergePatch (target patch : JVal) : JVal :=
  match patch with
  | .obj pf =>
    match target with
    | .obj tf => .obj (mergeObjFields tf pf)
    | _ => .obj (mergeObjFields .nil pf)
  | p => p

/-- Field-wise merge of a patch object into a target object (RFC 7386). -/
def mergeObjFields (tf : JObj) (pf : JObj) : JObj :=
  match pf with
  | .nil => tf
  | .cons k v rest =>
    match v with
    | .jnull => mergeObjFields (tf.remove k) rest
    | _ => mergeObjFields (tf.set k (mergePatch ((tf.get k).getD .jnull) v)) rest
end

/-- The merge patch payload built by variant B's `createOrUpdateSecret`:
`{"data": {secretKey: base64(token)}}`. -/
def secretMergePatchPayload (secretKey token : String) : JVal :=
  .obj (.cons "data" (.obj (.cons secretKey (.str (base64EncodeStr token)) .nil)) .nil)

/-- The Secret object variant B creates when the Get reported not-found:
name and namespace metadata, `Data` holding the token bytes at `secretKey`
(base64 in the JSON representation), type `Opaque`. -/
def newSecretJson (ns secretName secretKey token : String) : JVal :=
  .obj (.cons "metadata"
          (.obj (.cons "name" (.str secretName) (.cons "namespace" (.str ns) .nil)))
        (.cons "data" (.obj (.cons secretKey (.str (base64EncodeStr token)) .nil))
          (.cons "type" (.str "Opaque") .nil)))

/-- Result of variant B `createOrUpdateSecret`: the write it issued. -/
inductive CouResult where
  | created : JVal → CouResult
  | patched : JVal → CouResult

/-- Variant B `createOrUpdateSecret` on one namespace: Get, then Create when
not found, otherwise unconditionally issue the merge patch. -/
def createOrUpdateSecret (existing : Option JObj)
    (ns secretName secretKey token : String) : CouResult :=
  match existing with
  | none => .created (newSecretJson ns secretName secretKey token)
  | some s => .patched (mergePatch (.obj s) (secretMergePatchPayload secretKey token))

/-- Lookup after `set`: the set key reads back the new value, every other
key is untouched. -/
theorem JObj.get_set : ∀ (o : JObj) (k : String) (v : JVal) (key : String),
    (o.set k v).get key = if k = key then some v else o.get key
  | .nil, k, v, key => by simp [JObj.set, JObj.get]
  | .cons k' v' rest, k, v, key => by
    by_cases h1 : k' = k
    · subst h1
      by_cases h2 : k' = key <;> simp [JObj.set, JObj.get, h2]
    · by_cases h2 : k' = key
      · subst h2
        have hk : ¬k = k' := fun he => h1 he.symm
        simp [JObj.set, JObj.get, h1, hk]
      · simp [JObj.set, JObj.get, h1, h2, JObj.get_set rest k v key]

/-- Claim C9: applying the merge patch `{"data": {k: base64(token)}}` (the
payload variant B builds) to any stored Secret whose `data` field is an
object rewrites only the `data` field, inside which only key `k` changes:
every other top-level field (in particular `metadata`, which holds the
labels) and every other data key read back unchanged. -/
theorem merge_patch_frame (s d : JObj) (k token : String)
    (h : s.get "data" = some (.obj d)) :
    mergePatch (.obj s) (secretMergePatchPayload k token) =
      .obj (s.set "data" (.obj (d.set k (.str (base64EncodeStr token))))) ∧
    (∀ key, key ≠ "data" →
      (s.set "data" (.obj (d.set k (.str (base64EncodeStr token))))).get key = s.get key) ∧
    (d.set k (.str (base64EncodeStr token))).get k = some (.str (base64EncodeStr token)) ∧
    (∀ key, key ≠ k →
      (d.set k (.str (base64EncodeStr token))).get key = d.get key) := by
  refine ⟨?_, ?_, ?_, ?_⟩
  · simp [secretMergePatchPayload, mergePatch, mergeObjFields, h]
  · intro key hkey
    rw [JObj.get_set]
    rw [if_neg (fun he => hkey he.symm)]
  · rw [JObj.get_set]
    simp
  · intro key hkey
    rw [JObj.get_set]
    rw [if_neg (fun he => hkey he.symm)]

/-- A stored Secret (JSON form) with labels, a `token` data key holding the
base64 of `v`, and one unrelated data key. -/
def exampleSecretJson (v : String) : JObj :=
  .cons "metadata" (.obj (.cons "labels" (.obj (.cons "app" (.str "demo") .nil)) .nil))
    (.cons "data" (.obj (.cons "token" (.str (base64EncodeStr v))
        (.cons "other" (.str "eA==") .nil)))
      (.cons "type" (.str "Opaque") .nil))

/-- The `data` object of `exampleSecretJson`. -/
def exampleData (v : String) : JObj :=
  .cons "token" (.str (base64EncodeStr v)) (.cons "other" (.str "eA==") .nil)

/-- Concrete instantiation of `merge_patch_frame` on a Secret with a second
data key and labels. -/
theorem merge_patch_frame_applied :
    ((exampleSecretJson "old").get "data" = some (.obj (exampleData "old"))) ∧
    (mergePatch (.obj (exampleSecretJson "old")) (secretMergePatchPayload "token" "new") =
      .obj ((exampleSecretJson "old").set "data"
        (.obj ((exampleData "old").set "token" (.str (base64EncodeStr "new"))))) ∧
    (∀ key, key ≠ "data" →
      ((exampleSecretJson "old").set "data"
        (.obj ((exampleData "old").set "token" (.str (base64EncodeStr "new"))))).get key =
        (exampleSecretJson "old").get key) ∧
    ((exampleData "old").set "token" (.str (base64EncodeStr "new"))).get "token" =
      some (.str (base64EncodeStr "new")) ∧
    (∀ key, key ≠ "token" →
      ((exampleData "old").set "token" (.str (base64EncodeStr "new"))).get key =
        (exampleData "old").get key)) :=
  ⟨rfl, merge_patch_frame (exampleSecretJson "old") (exampleData "old") "token" "new" rfl⟩

/-- A stored Secret (JSON form, for variant B) whose `token` data key
already holds the base64 of `v`. -/
def storedWithToken (v : String) : JObj :=
  .cons "metadata" (.obj (.cons "name" (.str "oidc-token-secret") .nil))
    (.cons "data" (.obj (.cons "token" (.str (base64EncodeStr v)) .nil)) .nil)

/-- Claim C1 is violated by the code (code bug): after a first run creates
the Secret (so its stored `data` holds exactly the current token at key
`token`), a second run with the same token still performs a write.
Variant A compares `existing.StringData["token"]` on the fetched object,
but `stringData` is write-only and reads back empty, so the comparison
fails for any non-empty token and the code takes the Update path (outcome
`updated`, a write) instead of `unchanged`.  Variant B issues the merge
patch unconditionally whenever the Secret exists.  The conjuncts below
evaluate both reconcilers at such an equal-token state. -/
theorem reconcile_equal_token_still_writes :
    (manageNamespaceSecret none "abc").2.1 = .created ∧
    (manageNamespaceSecret none "abc").1 = some (applyWrite (desiredSecret "abc")) ∧
    mapGet (applyWrite (desiredSecret "abc")).data "token" = "abc" ∧
    (manageNamespaceSecret (some (applyWrite (desiredSecret "abc"))) "abc").2.1 = .updated ∧
    (manageNamespaceSecret (some (applyWrite (desiredSecret "abc"))) "abc").2.2 = true ∧
    createOrUpdateSecret (some (storedWithToken "abc")) "ns" "oidc-token-secret" "token" "abc" =
      .patched (mergePatch (.obj (storedWithToken "abc"))
        (secretMergePatchPayload "token" "abc")) :=
  ⟨rfl, rfl, rfl, rfl, rfl, rfl⟩

/-- The run summary accumulated by variant A's `manageSecretsClusterWide`
loop: namespaces attempted, `successCount`, and `errorList`. -/
structure ClusterRun where
  attempted : List String
  successCount : Nat
  errors : List String
deriving DecidableEq

/-- Variant A `manageSecretsClusterWide` over a namespace list: every
namespace runs `withRetries(manageNamespaceSecret ...)` (here `perNs ns` is
the per-attempt result sequence of that namespace's operation); a failure
appends `"namespace %s: %w"` to the error list and the loop continues. -/
def manageSecretsClusterWide (namespaces : List String)
    (perNs : String → Nat → Except String Unit) : ClusterRun :=
  match namespaces with
  | [] => ⟨[], 0, []⟩
  | ns :: rest =>
    let tail := manageSecretsClusterWide rest perNs
    match withRetries (perNs ns) with
    | .ok _ => ⟨ns :: tail.attempted, tail.successCount + 1, tail.errors⟩
    | .error e =>
      ⟨ns :: tail.attempted, tail.successCount, ("namespace " ++ ns ++ ": " ++ e) :: tail.errors⟩

/-- The tail of `manageSecretsClusterWide`:
`if len(errorList) > 0 return fmt.Errorf("completed with %d errors: %v", ...)`,
otherwise `nil`. -/
def clusterRunError (r : ClusterRun) : Option String :=
  if r.errors.length > 0 then
    some ("completed with " ++ toString r.errors.length ++ " errors")
  else none

/-- Claim C3: under aggregate-and-continue, every namespace in the target
list is attempted regardless of failures; the error list holds exactly one
entry per failed namespace (in order); and the overall run returns an error
exactly when that list is non-empty. -/
theorem aggregate_and_continue_policy (namespaces : List String)
    (perNs : String → Nat → Except String Unit) :
    (manageSecretsClusterWide namespaces perNs).attempted = namespaces ∧
    (manageSecretsClusterWide namespaces perNs).errors =
      namespaces.filterMap (fun ns =>
        match withRetries (perNs ns) with
        | .ok _ => none
        | .error e => some ("namespace " ++ ns ++ ": " ++ e)) ∧
    ((clusterRunError (manageSecretsClusterWide namespaces perNs)).isSome ↔
      (manageSecretsClusterWide namespaces perNs).errors ≠ []) := by
  have main : ∀ l : List String,
      (manageSecretsClusterWide l perNs).attempted = l ∧
      (manageSecretsClusterWide l perNs).errors =
        l.filterMap (fun ns =>
          match withRetries (perNs ns) with
          | .ok _ => none
          | .error e => some ("namespace " ++ ns ++ ": " ++ e)) := by
    intro l
    induction l with
    | nil => exact ⟨rfl, rfl⟩
    | cons ns rest ih =>
      cases hr : withRetries (perNs ns) <;>
        simp [manageSecretsClusterWide, hr, List.filterMap_cons, ih.1, ih.2]
  refine ⟨(main namespaces).1, (main namespaces).2, ?_⟩
  unfold clusterRunError
  cases he : (manageSecretsClusterWide namespaces perNs).errors <;> simp [he]

/-- The process outcome of variant B's `processSecretsInNamespaces` in a
run without shutdown signals: either the loop completes, or the first
failing namespace hits `log.Fatalf` (both on timeout and on any other
error), aborting the whole process there. -/
inductive ProcOutcome where
  | completed : ProcOutcome
  | fatalAbort : String → String → ProcOutcome
deriving DecidableEq

/-- Variant B `processSecretsInNamespaces` (signal-free run: the
`ctx.Done()` select always takes the default branch).  Returns the outcome
and the list of namespaces actually attempted, in order. -/
def processSecretsInNamespaces (namespaces : List String)
    (op : String → Except String Unit) : ProcOutcome × List String :=
  match namespaces with
  | [] => (.completed, [])
  | ns :: rest =>
    match op ns with
    | .ok _ =>
      let r := processSecretsInNamespaces rest op
      (r.1, ns :: r.2)
    | .error e => (.fatalAbort ns e, [ns])

/-- Claim C4: under fail-fast, the run aborts at the first namespace whose
reconciliation fails; the attempted list stops at that namespace, so no
namespace occurring after it in the target list is ever attempted. -/
theorem fail_fast_stops_at_first_failure (pre post : List String) (b e : String)
    (op : String → Except String Unit)
    (hpre : ∀ x ∈ pre, op x = .ok ()) (hb : op b = .error e) :
    processSecretsInNamespaces (pre ++ b :: post) op = (.fatalAbort b e, pre ++ [b]) := by
  induction pre with
  | nil => simp [processSecretsInNamespaces, hb]
  | cons x xs ih =>
    have hx : op x = .ok () := hpre x (by simp)
    have ihh := ih (fun y hy => hpre y (List.mem_cons_of_mem x hy))
    simp [processSecretsInNamespaces, hx, ihh]

/-- Per-namespace operation that fails on `b` and succeeds elsewhere. -/
def opFailOnB : String → Except String Unit :=
  fun ns => if ns = "b" then .error "boom" else .ok ()

/-- Concrete instantiation of `fail_fast_stops_at_first_failure` on
`["a", "b", "c"]` with `"b"` failing: the run aborts at `"b"` and `"c"` is
never attempted. -/
theorem fail_fast_stops_at_first_failure_applied :
    (∀ x ∈ ["a"], opFailOnB x = .ok ()) ∧
    processSecretsInNamespaces (["a"] ++ "b" :: ["c"]) opFailOnB =
      (.fatalAbort "b" "boom", ["a"] ++ ["b"]) :=
  ⟨by intro x hx; simp at hx; subst hx; rfl,
    fail_fast_stops_at_first_failure ["a"] ["c"] "b" "boom" opFailOnB
      (by intro x hx; simp at hx; subst hx; rfl) rfl⟩

/-- Code points accepted by Go `unicode.IsSpace` (what `strings.TrimSpace`
strips): ASCII whitespace, NEL, NBSP and the Unicode White_Space singles. -/
def goSpaceCodes : List Nat := [9, 10, 11, 12, 13, 32, 133, 160, 5760, 8232, 8233, 8239, 8287, 12288]

/-- Whether a character is whitespace for Go `strings.TrimSpace`. -/
def isGoSpace (c : Char) : Bool :=
  goSpaceCodes.contains c.toNat || (8192 ≤ c.toNat && c.toNat ≤ 8202)

/-- Go `strings.TrimSpace`: drop leading and trailing whitespace. -/
def goTrimSpace (s : String) : String :=
  ⟨((s.data.dropWhile isGoSpace).reverse.dropWhile isGoSpace).reverse⟩

/-- Go `strings.Split(s, ",")` on the character list: split at every comma,
keeping empty fields. -/
def splitOnCommaChars : List Char → List (List Char)
  | [] => [[]]
  | c :: rest =>
    let r := splitOnCommaChars rest
    if c = ',' then [] :: r
    else
      match r with
      | [] => [[c]]
      | h :: t => (c :: h) :: t

/-- Go `strings.Split(s, ",")`. -/
def splitOnComma (s : String) : List String :=
  (splitOnCommaChars s.data).map (fun l => ⟨l⟩)

/-- The `TARGET_NAMESPACES` parsing in variant B's `main`: split on commas,
`TrimSpace` every entry, keep the non-empty ones (order preserved,
duplicates kept). -/
def parseTargets (s : String) : List String :=
  ((splitOnComma s).map goTrimSpace).filter (fun x => x != "")

/-- Result of the namespace-resolution phase of variant B's `main`:
the namespaces to process, whether the cluster lister was invoked, and a
fatal listing error if the lister was invoked and failed. -/
structure Resolution where
  namespaces : List String
  usedLister : Bool
  listErr : Option String
deriving DecidableEq

/-- The namespace-resolution branch of variant B's `main`: a non-empty
`TARGET_NAMESPACES` string is parsed and used verbatim without touching the
cluster; otherwise all namespaces are listed from the cluster. -/
def resolveNamespacesToProcess (targetStr : String)
    (lister : Except String (List String)) : Resolution :=
  if targetStr ≠ "" then ⟨parseTargets targetStr, false, none⟩
  else
    match lister with
    | .ok l => ⟨l, true, none⟩
    | .error e => ⟨[], true, some e⟩

/-- Process-level outcome of variant B's `main` after token fetch: exit 0
(normal return) or exit 1 (`log.Fatalf`). -/
inductive MainResult where
  | exitSuccess : MainResult
  | exitFatal : String → MainResult
deriving DecidableEq

/-- The rest of variant B's `main` (signal-free run): a lister failure is
fatal; an empty target list logs and returns (exit 0, nothing processed);
otherwise the namespaces are processed fail-fast.  The boolean reports
whether the cluster lister was invoked. -/
def mainRun (targetStr : String) (lister : Except String (List String))
    (op : String → Except String Unit) : MainResult × Bool :=
  let r := resolveNamespacesToProcess targetStr lister
  match r.listErr with
  | some e => (.exitFatal ("Error listing all namespaces: " ++ e), r.usedLister)
  | none =>
    if r.namespaces.isEmpty then (.exitSuccess, r.usedLister)
    else
      match (processSecretsInNamespaces r.namespaces op).1 with
      | .completed => (.exitSuccess, r.usedLister)
      | .fatalAbort ns e =>
        (.exitFatal ("Error creating or updating secret in namespace " ++ ns ++ ": " ++ e),
          r.usedLister)

/-- Claim C6: a non-empty explicit namespace string is split on commas,
trimmed, cleared of empty entries and used verbatim, without invoking the
cluster lister; `"ns1, ,ns2,"` parses to exactly `["ns1", "ns2"]`, and
order and duplicates are preserved. -/
theorem resolve_explicit_verbatim (s : String) (h : s ≠ "") :
    (∀ lister : Except String (List String),
      resolveNamespacesToProcess s lister = ⟨parseTargets s, false, none⟩) ∧
    parseTargets "ns1, ,ns2," = ["ns1", "ns2"] ∧
    parseTargets "a, b ,a" = ["a", "b", "a"] :=
  ⟨fun lister => by simp [resolveNamespacesToProcess, h], by decide, by decide⟩

/-- Concrete instantiation of `resolve_explicit_verbatim` at the explicit
list `"ns1, ,ns2,"`. -/
theorem resolve_explicit_verbatim_applied :
    ("ns1, ,ns2," ≠ "") ∧
    ((∀ lister : Except String (List String),
      resolveNamespacesToProcess "ns1, ,ns2," lister =
        ⟨parseTargets "ns1, ,ns2,", false, none⟩) ∧
    parseTargets "ns1, ,ns2," = ["ns1", "ns2"] ∧
    parseTargets "a, b ,a" = ["a", "b", "a"]) :=
  ⟨by decide, resolve_explicit_verbatim "ns1, ,ns2," (by decide)⟩

/-- Claim C7: an explicit namespace string that parses to the empty list is
a valid no-targets run: `main` returns success (exit 0) without a fatal
error and without invoking the cluster lister. -/
theorem empty_explicit_list_noop_success (s : String) (h1 : s ≠ "")
    (h2 : parseTargets s = []) :
    ∀ (lister : Except String (List String)) (op : String → Except String Unit),
      mainRun s lister op = (.exitSuccess, false) := by
  intro lister op
  simp [mainRun, resolveNamespacesToProcess, h1, h2]

/-- Concrete instantiation of `empty_explicit_list_noop_success` at the
explicit list `" , ,"`, with a lister and an operation that would be
observable if invoked. -/
theorem empty_explicit_list_noop_success_applied :
    (" , ," ≠ "") ∧ parseTargets " , ," = [] ∧
    mainRun " , ," (.ok ["default"]) (fun _ => .error "boom") = (.exitSuccess, false) :=
  ⟨by decide, by decide,
    empty_explicit_list_noop_success " , ," (by decide) (by decide)
      (.ok ["default"]) (fun _ => .error "boom")⟩
